import Mathlib

/-!
Verification development for the copier server (server.js and its ESM
variant). The definitions below are a shallow embedding of the tenant
registry, the event log, the slave cursor directory and the HTTP handler
bodies; timestamps are epoch milliseconds modelled as Nat, JS numbers in
the opaque trade payload are modelled as Int, and each handler returns its
response together with the post-state.
-/

deriving instance DecidableEq for Except

namespace Rent

/-- Error taxonomy of the handlers: 400, 401, 403, 404. -/
inductive ApiErr where
  | invalidInput
  | unauthorized
  | forbidden
  | notFound
deriving Repr, DecidableEq

/-- A tenant record, as stored in clients.json. -/
structure Client where
  clientId : String
  fullName : String
  groupId : String
  apiKey : String
  enabled : Bool
  createdAt : Nat
  expiresAt : Nat
  boundSlaveId : String
deriving Repr, DecidableEq

/-- A trade event, as stored in copier_events.json. -/
structure Event where
  id : Nat
  group : String
  type : String
  ts : Nat
  master_ticket : Int
  open_time : Int
  symbol : String
  cmd : Int
  lots : Int
  price : Int
  sl : Int
  tp : Int
  magic : Int
deriving Repr, DecidableEq

/-- The event-log document: shared id counter plus the stored events. -/
structure Copier where
  nextId : Nat
  events : List Event
deriving Repr, DecidableEq

/-- A slave cursor record, keyed by the composite group|slaveId string. -/
structure SlaveRec where
  lastAckId : Nat
  lastSeenAt : Nat
deriving Repr, DecidableEq

/-- Whole in-memory server state touched by the copier endpoints. -/
structure ServerState where
  clients : List Client
  copier : Copier
  slaves : List (String × SlaveRec)
deriving Repr, DecidableEq

/-- addDurationMs: duration code to millisecond offset; unknown codes
default to the M1 offset. -/
def addDurationMs (code : String) : Nat :=
  let day := 24 * 60 * 60 * 1000
  if code = "M1" then 31 * day
  else if code = "M3" then 93 * day
  else if code = "M6" then 186 * day
  else if code = "Y1" then 366 * day
  else 31 * day

/-- adminOk of server.js: allow everything when ADMIN_KEY is unset,
otherwise require the x-admin-key header to equal it. -/
def adminOk (adminKey : String) (hdr : Option String) : Bool :=
  if adminKey = "" then true
  else hdr == some adminKey

/-- adminOk of the unnamed variant (part_000): reject everything when
ADMIN_KEY is unset, otherwise compare the header (defaulted to "") with it. -/
def adminOkPart000 (adminKey : String) (hdr : Option String) : Bool :=
  if adminKey = "" then false
  else (hdr.getD "") == adminKey

/-- masterOk: an unset MASTER_KEY always rejects. -/
def masterOk (masterKey : String) (hdr : Option String) : Bool :=
  if masterKey = "" then false
  else hdr == some masterKey

/-- clientActive: enabled and not yet expired (expiresAt <= now fails). -/
def clientActive (now : Nat) (c : Client) : Bool :=
  c.enabled && decide (now < c.expiresAt)

/-- findClientByApiKey: first client whose apiKey equals the key. -/
def findClientByApiKey (clients : List Client) (apiKey : String) : Option Client :=
  clients.find? (fun c => c.apiKey == apiKey)

/-- findClientById: first client whose clientId equals the id. -/
def findClientById (clients : List Client) (clientId : String) : Option Client :=
  clients.find? (fun c => c.clientId == clientId)

/-- Whitespace trim at both ends, the semantics of the JS trim call. -/
def jsTrim (s : String) : String :=
  String.mk
    ((((s.toList.dropWhile Char.isWhitespace).reverse.dropWhile
        Char.isWhitespace)).reverse)

/-- The x-api-key header value as the handlers see it: default "" then trim. -/
def apiKeyOf (hdr : Option String) : String :=
  jsTrim (hdr.getD "")

/-- requireClient: valid key, active tenant, group match, in that order. -/
def requireClient (hdr : Option String) (groupIdFromReq : String)
    (clients : List Client) (now : Nat) : Except ApiErr Client :=
  if apiKeyOf hdr = "" then .error .unauthorized
  else
    match findClientByApiKey clients (apiKeyOf hdr) with
    | none => .error .unauthorized
    | some c =>
      if !clientActive now c then .error .forbidden
      else if groupIdFromReq ≠ "" ∧ c.groupId ≠ groupIdFromReq then .error .forbidden
      else .ok c

/-- In-place mutation of the first list element satisfying p (the JS code
mutates the object returned by find). -/
def updateFirst (p : Client → Bool) (f : Client → Client) : List Client → List Client
  | [] => []
  | c :: rest => if p c then f c :: rest else c :: updateFirst p f rest

/-- slaveKey: composite string key group|slaveId. -/
def slaveKey (group slaveId : String) : String :=
  group ++ "|" ++ slaveId

/-- Lookup in the slaves object. -/
def getSlave (m : List (String × SlaveRec)) (k : String) : Option SlaveRec :=
  (m.find? (fun kv => kv.1 == k)).map (fun kv => kv.2)

/-- Store under a key, replacing an existing binding. -/
def setSlave : List (String × SlaveRec) → String → SlaveRec → List (String × SlaveRec)
  | [], k, v => [(k, v)]
  | kv :: rest, k, v => if kv.1 == k then (k, v) :: rest else kv :: setSlave rest k v

/-- Create-if-absent then update lastSeenAt, as register and poll do. -/
def touchSlave (m : List (String × SlaveRec)) (k : String) (now : Nat) :
    List (String × SlaveRec) :=
  let r := (getSlave m k).getD { lastAckId := 0, lastSeenAt := 0 }
  setSlave m k { r with lastSeenAt := now }

/-- Create-if-absent then lastAckId := max(current, event_id), as ack does. -/
def ackSlave (m : List (String × SlaveRec)) (k : String) (event_id : Nat) (now : Nat) :
    List (String × SlaveRec) :=
  let r := (getSlave m k).getD { lastAckId := 0, lastSeenAt := 0 }
  setSlave m k { lastAckId := max r.lastAckId event_id, lastSeenAt := now }

/-- The lastAckId currently recorded for a key, 0 when the record is absent. -/
def lastAckOf (m : List (String × SlaveRec)) (k : String) : Nat :=
  ((getSlave m k).getD { lastAckId := 0, lastSeenAt := 0 }).lastAckId

/-- saveCopier retention: keep only the most recent 50000 events. -/
def trimEvents (l : List Event) : List Event :=
  if l.length > 50000 then l.drop (l.length - 50000) else l

/-- Request body of POST /copier/push after JS coercions. -/
structure PushBody where
  group : String
  type : String
  master_ticket : Int
  open_time : Int
  symbol : String
  cmd : Int
  lots : Int
  price : Int
  sl : Int
  tp : Int
  magic : Int
deriving Repr, DecidableEq

/-- The event object built by POST /copier/push; its id field takes the
value of the shared counter at build time. -/
def pushedEvent (b : PushBody) (now : Nat) (i : Nat) : Event :=
  { id := i, group := b.group, type := b.type, ts := now,
    master_ticket := b.master_ticket, open_time := b.open_time,
    symbol := b.symbol, cmd := b.cmd, lots := b.lots, price := b.price,
    sl := b.sl, tp := b.tp, magic := b.magic }

/-- POST /copier/push: master auth, group/type check, event build (the
counter increments as soon as the event object is built, before the
required-field check on master_ticket and symbol), append, retention trim. -/
def copierPush (masterKey : String) (hdr : Option String) (b : PushBody)
    (now : Nat) (c : Copier) : Except ApiErr Nat × Copier :=
  if !masterOk masterKey hdr then (.error .unauthorized, c)
  else if b.group = "" ∨ (b.type ≠ "OPEN" ∧ b.type ≠ "CLOSE") then
    (.error .invalidInput, c)
  else if b.master_ticket = 0 ∨ b.symbol = "" then
    (.error .invalidInput, { c with nextId := c.nextId + 1 })
  else
    (.ok c.nextId,
      { nextId := c.nextId + 1,
        events := trimEvents (c.events ++ [pushedEvent b now c.nextId]) })

/-- The scan loop of GET /copier/events: insertion order, exact group
match, id strictly beyond since, stop once limit matches are collected. -/
def listSince (group : String) (since : Nat) (limit : Nat) :
    List Event → List Event
  | [] => []
  | ev :: rest =>
    if ev.group ≠ group ∨ ev.id ≤ since then listSince group since limit rest
    else if limit ≤ 1 then [ev]
    else ev :: listSince group since (limit - 1) rest

/-- POST /copier/registerSlave: field check, tenant gate, first-seen-wins
binding, touch of the cursor record. -/
def registerSlave (hdr : Option String) (group slaveId : String) (now : Nat)
    (st : ServerState) : Except ApiErr String × ServerState :=
  if group = "" ∨ slaveId = "" then (.error .invalidInput, st)
  else
    match requireClient hdr group st.clients now with
    | .error e => (.error e, st)
    | .ok c =>
      if c.boundSlaveId = "" then
        (.ok slaveId,
          { st with
            clients := updateFirst (fun x => x.apiKey == c.apiKey)
              (fun x => { x with boundSlaveId := slaveId }) st.clients,
            slaves := touchSlave st.slaves (slaveKey group slaveId) now })
      else if c.boundSlaveId ≠ slaveId then (.error .forbidden, st)
      else
        (.ok c.boundSlaveId,
          { st with slaves := touchSlave st.slaves (slaveKey group slaveId) now })

/-- GET /copier/events: field check, tenant gate, first-seen-wins binding,
touch of the cursor record, then the filtered scan with the clamped limit. -/
def pollEvents (hdr : Option String) (group slaveId : String)
    (since limit : Nat) (now : Nat) (st : ServerState) :
    Except ApiErr (List Event) × ServerState :=
  if group = "" ∨ slaveId = "" then (.error .invalidInput, st)
  else
    match requireClient hdr group st.clients now with
    | .error e => (.error e, st)
    | .ok c =>
      if c.boundSlaveId = "" then
        (.ok (listSince group since (min 500 (max 1 limit)) st.copier.events),
          { st with
            clients := updateFirst (fun x => x.apiKey == c.apiKey)
              (fun x => { x with boundSlaveId := slaveId }) st.clients,
            slaves := touchSlave st.slaves (slaveKey group slaveId) now })
      else if c.boundSlaveId ≠ slaveId then (.error .forbidden, st)
      else
        (.ok (listSince group since (min 500 (max 1 limit)) st.copier.events),
          { st with slaves := touchSlave st.slaves (slaveKey group slaveId) now })

/-- POST /copier/ack: field check, tenant gate, binding check only when
already bound (no implicit first bind), cursor advance by max. -/
def copierAck (hdr : Option String) (group slaveId : String)
    (event_id : Nat) (status : String) (now : Nat) (st : ServerState) :
    Except ApiErr Unit × ServerState :=
  if group = "" ∨ slaveId = "" ∨ event_id = 0 ∨ status = "" then
    (.error .invalidInput, st)
  else
    match requireClient hdr group st.clients now with
    | .error e => (.error e, st)
    | .ok c =>
      if c.boundSlaveId ≠ "" ∧ c.boundSlaveId ≠ slaveId then
        (.error .forbidden, st)
      else
        (.ok (),
          { st with
            slaves := ackSlave st.slaves (slaveKey group slaveId) event_id now })

/-- The expiry computed by extend: base is max(now, current expiry), offset
comes from the duration code, which defaults to M1 when empty. -/
def extendedExpiry (now : Nat) (c : Client) (duration : String) : Nat :=
  max now c.expiresAt + addDurationMs (if duration = "" then "M1" else duration)

/-- POST /admin/clients/extend: admin gate, lookup by clientId, new expiry
max(now, current) + duration offset (duration defaults to M1 when empty). -/
def adminExtend (adminKey : String) (hdr : Option String)
    (clientId duration : String) (now : Nat) (clients : List Client) :
    Except ApiErr Nat × List Client :=
  if !adminOk adminKey hdr then (.error .unauthorized, clients)
  else
    match findClientById clients clientId with
    | none => (.error .notFound, clients)
    | some c =>
      (.ok (extendedExpiry now c duration),
        updateFirst (fun x => x.clientId == clientId)
          (fun x => { x with expiresAt := extendedExpiry now c duration }) clients)

/-- POST /admin/clients/disable: admin gate, lookup, set enabled. -/
def adminDisable (adminKey : String) (hdr : Option String)
    (clientId : String) (enabled : Bool) (clients : List Client) :
    Except ApiErr Unit × List Client :=
  if !adminOk adminKey hdr then (.error .unauthorized, clients)
  else
    match findClientById clients clientId with
    | none => (.error .notFound, clients)
    | some _ =>
      (.ok (),
        updateFirst (fun x => x.clientId == clientId)
          (fun x => { x with enabled := enabled }) clients)

/-- POST /admin/clients/resetBind: admin gate, lookup, clear boundSlaveId. -/
def adminResetBind (adminKey : String) (hdr : Option String)
    (clientId : String) (clients : List Client) :
    Except ApiErr Unit × List Client :=
  if !adminOk adminKey hdr then (.error .unauthorized, clients)
  else
    match findClientById clients clientId with
    | none => (.error .notFound, clients)
    | some _ =>
      (.ok (),
        updateFirst (fun x => x.clientId == clientId)
          (fun x => { x with boundSlaveId := "" }) clients)

/-- Sequential pushes: collected assigned ids of the successful ones, in
request order, together with the final log state. -/
def pushMany (masterKey : String) :
    List (Option String × PushBody × Nat) → Copier → List Nat × Copier
  | [], c => ([], c)
  | (hdr, b, now) :: rest, c =>
    match copierPush masterKey hdr b now c with
    | (.ok i, c1) =>
      (i :: (pushMany masterKey rest c1).1, (pushMany masterKey rest c1).2)
    | (.error _, c1) => pushMany masterKey rest c1

/-- Well-formedness of the event log: ids strictly increase along the list
and stay below the shared counter. -/
def eventsWf (c : Copier) : Prop :=
  c.events.Pairwise (fun a b => a.id < b.id) ∧ ∀ e ∈ c.events, e.id < c.nextId

/-! Helper lemmas about the embedded operations. -/

theorem find?_updateFirst (p : Client → Bool) (f : Client → Client)
    (hpf : ∀ x, p (f x) = p x) (l : List Client) :
    (updateFirst p f l).find? p = (l.find? p).map f := by
  induction l with
  | nil => simp [updateFirst]
  | cons c rest ih =>
    by_cases h : p c
    · rw [updateFirst, if_pos h, List.find?_cons_of_pos _ ((hpf c).trans h),
        List.find?_cons_of_pos _ h, Option.map_some']
    · rw [updateFirst, if_neg h, List.find?_cons_of_neg _ h,
        List.find?_cons_of_neg _ h, ih]

theorem getSlave_setSlave_self (m : List (String × SlaveRec)) (k : String)
    (v : SlaveRec) : getSlave (setSlave m k v) k = some v := by
  induction m with
  | nil => simp [setSlave, getSlave]
  | cons kv rest ih =>
    by_cases h : kv.1 = k
    · simp [setSlave, getSlave, h]
    · simp only [setSlave, if_neg (by simpa using h)]
      simpa [getSlave, h] using ih

theorem listSince_sublist (group : String) (since : Nat) :
    ∀ (limit : Nat) (evs : List Event),
      (listSince group since limit evs).Sublist evs := by
  intro limit evs
  induction evs generalizing limit with
  | nil => simp [listSince]
  | cons ev rest ih =>
    rw [listSince]
    split
    · exact List.Sublist.cons ev (ih limit)
    · split
      · exact List.Sublist.cons₂ ev (List.nil_sublist rest)
      · exact List.Sublist.cons₂ ev (ih (limit - 1))

theorem mem_listSince {group : String} {since : Nat} :
    ∀ {limit : Nat} {evs : List Event} {e : Event},
      e ∈ listSince group since limit evs → e.group = group ∧ since < e.id := by
  intro limit evs
  induction evs generalizing limit with
  | nil => intro e h; simp [listSince] at h
  | cons ev rest ih =>
    intro e h
    rw [listSince] at h
    split at h
    · exact ih h
    · rename_i hcond
      push_neg at hcond
      split at h
      · rw [List.mem_singleton] at h
        subst h
        exact hcond
      · rcases List.mem_cons.mp h with rfl | h2
        · exact hcond
        · exact ih h2

theorem listSince_length_le (group : String) (since : Nat) :
    ∀ (limit : Nat) (evs : List Event),
      (listSince group since limit evs).length ≤ max 1 limit := by
  intro limit evs
  induction evs generalizing limit with
  | nil => simp [listSince]
  | cons ev rest ih =>
    rw [listSince]
    split
    · exact ih limit
    · split
      · rename_i hle
        simp only [List.length_singleton]
        omega
      · rename_i hgt
        have h2 := ih (limit - 1)
        simp only [List.length_cons]
        omega

theorem trimEvents_suffix (l : List Event) : trimEvents l <:+ l := by
  unfold trimEvents
  split
  · exact List.drop_suffix _ _
  · exact List.suffix_refl l

theorem trimEvents_sublist (l : List Event) : (trimEvents l).Sublist l :=
  (trimEvents_suffix l).sublist

theorem trimEvents_length (l : List Event) :
    (trimEvents l).length = min l.length 50000 := by
  unfold trimEvents
  split
  · rename_i h
    rw [List.length_drop]
    omega
  · rename_i h
    simp only [not_lt] at h
    omega

theorem requireClient_ok {hdr : Option String} {g : String}
    {clients : List Client} {now : Nat} {c : Client}
    (h : requireClient hdr g clients now = .ok c) :
    apiKeyOf hdr ≠ "" ∧
    findClientByApiKey clients (apiKeyOf hdr) = some c ∧
    clientActive now c = true ∧ (g ≠ "" → c.groupId = g) := by
  unfold requireClient at h
  split at h
  · simp at h
  · rename_i hk
    split at h
    · simp at h
    · rename_i c' hfind
      split at h
      · simp at h
      · rename_i hact
        split at h
        · simp at h
        · rename_i hgrp
          rw [Except.ok.injEq] at h
          subst h
          refine ⟨hk, hfind, by simpa using hact, fun hg => ?_⟩
          by_contra hne
          exact hgrp ⟨hg, hne⟩

theorem requireClient_empty_key {hdr : Option String} {g : String}
    {clients : List Client} {now : Nat} (hk : apiKeyOf hdr = "") :
    requireClient hdr g clients now = .error .unauthorized := by
  unfold requireClient
  rw [if_pos hk]

theorem requireClient_no_match {hdr : Option String} {g : String}
    {clients : List Client} {now : Nat}
    (hfind : findClientByApiKey clients (apiKeyOf hdr) = none) :
    requireClient hdr g clients now = .error .unauthorized := by
  unfold requireClient
  by_cases hk : apiKeyOf hdr = ""
  · rw [if_pos hk]
  · rw [if_neg hk, hfind]

theorem requireClient_inactive {hdr : Option String} {g : String}
    {clients : List Client} {now : Nat} {c : Client}
    (hk : apiKeyOf hdr ≠ "")
    (hfind : findClientByApiKey clients (apiKeyOf hdr) = some c)
    (hact : clientActive now c = false) :
    requireClient hdr g clients now = .error .forbidden := by
  unfold requireClient
  rw [if_neg hk, hfind]
  simp [hact]

theorem requireClient_group_mismatch {hdr : Option String} {g : String}
    {clients : List Client} {now : Nat} {c : Client}
    (hk : apiKeyOf hdr ≠ "")
    (hfind : findClientByApiKey clients (apiKeyOf hdr) = some c)
    (hact : clientActive now c = true) (hg : g ≠ "") (hne : c.groupId ≠ g) :
    requireClient hdr g clients now = .error .forbidden := by
  unfold requireClient
  rw [if_neg hk, hfind]
  simp [hact, hg, hne]

theorem copierPush_nextId_le (masterKey : String) (hdr : Option String)
    (b : PushBody) (now : Nat) (c : Copier) :
    c.nextId ≤ ((copierPush masterKey hdr b now c).2).nextId := by
  unfold copierPush
  split
  · exact le_refl _
  · split
    · exact le_refl _
    · split
      · exact Nat.le_succ _
      · exact Nat.le_succ _

theorem copierPush_ok_inv {masterKey : String} {hdr : Option String}
    {b : PushBody} {now : Nat} {c : Copier} {i : Nat}
    (h : (copierPush masterKey hdr b now c).1 = .ok i) :
    i = c.nextId ∧
    ((copierPush masterKey hdr b now c).2).nextId = c.nextId + 1 ∧
    ((copierPush masterKey hdr b now c).2).events =
      trimEvents (c.events ++ [pushedEvent b now c.nextId]) := by
  by_cases h1 : masterOk masterKey hdr
  · by_cases h2 : b.group = "" ∨ (b.type ≠ "OPEN" ∧ b.type ≠ "CLOSE")
    · simp [copierPush, h1, h2] at h
    · by_cases h3 : b.master_ticket = 0 ∨ b.symbol = ""
      · simp [copierPush, h1, h2, h3] at h
      · have hgoal : copierPush masterKey hdr b now c =
            (.ok c.nextId,
              { nextId := c.nextId + 1,
                events := trimEvents (c.events ++ [pushedEvent b now c.nextId]) }) := by
          unfold copierPush
          rw [if_neg (by simp [h1]), if_neg h2, if_neg h3]
        rw [hgoal] at h ⊢
        rw [Except.ok.injEq] at h
        exact ⟨h.symm, rfl, rfl⟩
  · simp [copierPush, h1] at h

theorem copierPush_wf {masterKey : String} {hdr : Option String}
    {b : PushBody} {now : Nat} {c : Copier} (hwf : eventsWf c) :
    eventsWf (copierPush masterKey hdr b now c).2 := by
  unfold copierPush
  split
  · exact hwf
  · split
    · exact hwf
    · split
      · exact ⟨hwf.1, fun e he => Nat.lt_succ_of_lt (hwf.2 e he)⟩
      · refine ⟨?_, ?_⟩
        · refine List.Pairwise.sublist (trimEvents_sublist _) ?_
          refine List.pairwise_append.mpr ⟨hwf.1, List.pairwise_singleton _ _, ?_⟩
          intro a ha e he
          rw [List.mem_singleton] at he
          subst he
          exact hwf.2 a ha
        · intro e he
          have hmem := (trimEvents_sublist _).subset he
          rcases List.mem_append.mp hmem with hold | hnew
          · exact Nat.lt_succ_of_lt (hwf.2 e hold)
          · rw [List.mem_singleton] at hnew
            subst hnew
            exact Nat.lt_succ_self _

theorem pushMany_spec (masterKey : String)
    (reqs : List (Option String × PushBody × Nat)) (c : Copier) :
    c.nextId ≤ (pushMany masterKey reqs c).2.nextId ∧
    (∀ i ∈ (pushMany masterKey reqs c).1,
      c.nextId ≤ i ∧ i < (pushMany masterKey reqs c).2.nextId) ∧
    (pushMany masterKey reqs c).1.Pairwise (fun a b => a < b) := by
  induction reqs generalizing c with
  | nil => simp [pushMany]
  | cons r rest ih =>
    obtain ⟨hdr, b, now⟩ := r
    rcases hP : copierPush masterKey hdr b now c with ⟨r1, c1⟩
    have hle : c.nextId ≤ c1.nextId := by
      have hm := copierPush_nextId_le masterKey hdr b now c
      rw [hP] at hm
      exact hm
    cases r1 with
    | error e =>
      rw [pushMany, hP]
      obtain ⟨ih1, ih2, ih3⟩ := ih c1
      exact ⟨le_trans hle ih1,
        fun i hi => ⟨le_trans hle (ih2 i hi).1, (ih2 i hi).2⟩, ih3⟩
    | ok i =>
      have hinv := copierPush_ok_inv
        (show (copierPush masterKey hdr b now c).1 = .ok i by rw [hP])
      rw [hP] at hinv
      dsimp only at hinv
      obtain ⟨hid, hnext, -⟩ := hinv
      rw [pushMany, hP]
      obtain ⟨ih1, ih2, ih3⟩ := ih c1
      simp only [List.mem_cons, List.pairwise_cons]
      refine ⟨?_, ?_, ?_, ih3⟩
      · omega
      · intro j hj
        rcases hj with rfl | hj
        · omega
        · have := ih2 j hj
          omega
      · intro j hj
        have := ih2 j hj
        omega

theorem lastAckOf_ackSlave (m : List (String × SlaveRec)) (k : String)
    (e now : Nat) : lastAckOf (ackSlave m k e now) k = max (lastAckOf m k) e := by
  simp only [ackSlave, lastAckOf, getSlave_setSlave_self, Option.getD_some]

theorem getSlave_ackSlave (m : List (String × SlaveRec)) (k : String)
    (e now : Nat) :
    getSlave (ackSlave m k e now) k =
      some { lastAckId := max (lastAckOf m k) e, lastSeenAt := now } := by
  simp only [ackSlave, lastAckOf, getSlave_setSlave_self]

theorem map_updateFirst {α : Type} (g : Client → α) (p : Client → Bool)
    (f : Client → Client) (h : ∀ x, g (f x) = g x) (l : List Client) :
    (updateFirst p f l).map g = l.map g := by
  induction l with
  | nil => simp [updateFirst]
  | cons c rest ih =>
    by_cases hp : p c
    · simp [updateFirst, hp, h c]
    · simp [updateFirst, hp, ih]

theorem registerSlave_gate_error {hdr : Option String} {group slaveId : String}
    {now : Nat} {st : ServerState} {e : ApiErr}
    (hgr : group ≠ "") (hsl : slaveId ≠ "")
    (hreq : requireClient hdr group st.clients now = .error e) :
    registerSlave hdr group slaveId now st = (.error e, st) := by
  unfold registerSlave
  rw [if_neg (by simp [hgr, hsl]), hreq]

theorem pollEvents_gate_error {hdr : Option String} {group slaveId : String}
    {since limit now : Nat} {st : ServerState} {e : ApiErr}
    (hgr : group ≠ "") (hsl : slaveId ≠ "")
    (hreq : requireClient hdr group st.clients now = .error e) :
    pollEvents hdr group slaveId since limit now st = (.error e, st) := by
  unfold pollEvents
  rw [if_neg (by simp [hgr, hsl]), hreq]

theorem copierAck_gate_error {hdr : Option String} {group slaveId : String}
    {event_id : Nat} {status : String} {now : Nat} {st : ServerState} {e : ApiErr}
    (hgr : group ≠ "") (hsl : slaveId ≠ "") (hid : event_id ≠ 0) (hst : status ≠ "")
    (hreq : requireClient hdr group st.clients now = .error e) :
    copierAck hdr group slaveId event_id status now st = (.error e, st) := by
  unfold copierAck
  rw [if_neg (by simp [hgr, hsl, hid, hst]), hreq]

theorem registerSlave_bind_eq {hdr : Option String} {group slaveId : String}
    {now : Nat} {st : ServerState} {c : Client}
    (hgr : group ≠ "") (hsl : slaveId ≠ "")
    (hreq : requireClient hdr group st.clients now = .ok c)
    (hempty : c.boundSlaveId = "") :
    registerSlave hdr group slaveId now st =
      (.ok slaveId,
        { st with
          clients := updateFirst (fun x => x.apiKey == c.apiKey)
            (fun x => { x with boundSlaveId := slaveId }) st.clients,
          slaves := touchSlave st.slaves (slaveKey group slaveId) now }) := by
  unfold registerSlave
  rw [if_neg (by simp [hgr, hsl]), hreq]
  simp [hempty]

theorem registerSlave_mismatch_eq {hdr : Option String} {group slaveId : String}
    {now : Nat} {st : ServerState} {c : Client}
    (hgr : group ≠ "") (hsl : slaveId ≠ "")
    (hreq : requireClient hdr group st.clients now = .ok c)
    (hb1 : c.boundSlaveId ≠ "") (hb2 : c.boundSlaveId ≠ slaveId) :
    registerSlave hdr group slaveId now st = (.error .forbidden, st) := by
  unfold registerSlave
  rw [if_neg (by simp [hgr, hsl]), hreq]
  simp [hb1, hb2]

theorem registerSlave_rebind_eq {hdr : Option String} {group slaveId : String}
    {now : Nat} {st : ServerState} {c : Client}
    (hgr : group ≠ "") (hsl : slaveId ≠ "")
    (hreq : requireClient hdr group st.clients now = .ok c)
    (hb : c.boundSlaveId = slaveId) (hsl2 : slaveId ≠ "") :
    registerSlave hdr group slaveId now st =
      (.ok slaveId,
        { st with slaves := touchSlave st.slaves (slaveKey group slaveId) now }) := by
  unfold registerSlave
  rw [if_neg (by simp [hgr, hsl]), hreq]
  simp [hb, hsl2]

theorem pollEvents_bind_eq {hdr : Option String} {group slaveId : String}
    {since limit now : Nat} {st : ServerState} {c : Client}
    (hgr : group ≠ "") (hsl : slaveId ≠ "")
    (hreq : requireClient hdr group st.clients now = .ok c)
    (hempty : c.boundSlaveId = "") :
    pollEvents hdr group slaveId since limit now st =
      (.ok (listSince group since (min 500 (max 1 limit)) st.copier.events),
        { st with
          clients := updateFirst (fun x => x.apiKey == c.apiKey)
            (fun x => { x with boundSlaveId := slaveId }) st.clients,
          slaves := touchSlave st.slaves (slaveKey group slaveId) now }) := by
  unfold pollEvents
  rw [if_neg (by simp [hgr, hsl]), hreq]
  simp [hempty]

theorem pollEvents_mismatch_eq {hdr : Option String} {group slaveId : String}
    {since limit now : Nat} {st : ServerState} {c : Client}
    (hgr : group ≠ "") (hsl : slaveId ≠ "")
    (hreq : requireClient hdr group st.clients now = .ok c)
    (hb1 : c.boundSlaveId ≠ "") (hb2 : c.boundSlaveId ≠ slaveId) :
    pollEvents hdr group slaveId since limit now st = (.error .forbidden, st) := by
  unfold pollEvents
  rw [if_neg (by simp [hgr, hsl]), hreq]
  simp [hb1, hb2]

theorem pollEvents_bound_eq {hdr : Option String} {group slaveId : String}
    {since limit now : Nat} {st : ServerState} {c : Client}
    (hgr : group ≠ "") (hsl : slaveId ≠ "")
    (hreq : requireClient hdr group st.clients now = .ok c)
    (hb : c.boundSlaveId = slaveId) (hsl2 : slaveId ≠ "") :
    pollEvents hdr group slaveId since limit now st =
      (.ok (listSince group since (min 500 (max 1 limit)) st.copier.events),
        { st with slaves := touchSlave st.slaves (slaveKey group slaveId) now }) := by
  unfold pollEvents
  rw [if_neg (by simp [hgr, hsl]), hreq]
  simp [hb, hsl2]

theorem copierAck_ok_eq {hdr : Option String} {group slaveId : String}
    {event_id : Nat} {status : String} {now : Nat} {st : ServerState} {c : Client}
    (hgr : group ≠ "") (hsl : slaveId ≠ "") (hid : event_id ≠ 0) (hst : status ≠ "")
    (hreq : requireClient hdr group st.clients now = .ok c)
    (hbind : c.boundSlaveId = "" ∨ c.boundSlaveId = slaveId) :
    copierAck hdr group slaveId event_id status now st =
      (.ok (),
        { st with
          slaves := ackSlave st.slaves (slaveKey group slaveId) event_id now }) := by
  unfold copierAck
  rw [if_neg (by simp [hgr, hsl, hid, hst]), hreq]
  have hb : ¬(c.boundSlaveId ≠ "" ∧ c.boundSlaveId ≠ slaveId) := by
    rcases hbind with h | h <;> simp [h]
  simp [hb]

theorem copierAck_forbidden_eq {hdr : Option String} {group slaveId : String}
    {event_id : Nat} {status : String} {now : Nat} {st : ServerState} {c : Client}
    (hgr : group ≠ "") (hsl : slaveId ≠ "") (hid : event_id ≠ 0) (hst : status ≠ "")
    (hreq : requireClient hdr group st.clients now = .ok c)
    (hb1 : c.boundSlaveId ≠ "") (hb2 : c.boundSlaveId ≠ slaveId) :
    copierAck hdr group slaveId event_id status now st = (.error .forbidden, st) := by
  unfold copierAck
  rw [if_neg (by simp [hgr, hsl, hid, hst]), hreq]
  simp [hb1, hb2]

theorem copierAck_clients_copier_frame (hdr : Option String)
    (group slaveId : String) (event_id : Nat) (status : String) (now : Nat)
    (st : ServerState) :
    (copierAck hdr group slaveId event_id status now st).2.clients = st.clients ∧
    (copierAck hdr group slaveId event_id status now st).2.copier = st.copier := by
  unfold copierAck
  split
  · exact ⟨rfl, rfl⟩
  · split
    · exact ⟨rfl, rfl⟩
    · split
      · exact ⟨rfl, rfl⟩
      · exact ⟨rfl, rfl⟩

theorem registerSlave_copier_frame (hdr : Option String)
    (group slaveId : String) (now : Nat) (st : ServerState) :
    (registerSlave hdr group slaveId now st).2.copier = st.copier := by
  unfold registerSlave
  split
  · rfl
  · split
    · rfl
    · split
      · rfl
      · split
        · rfl
        · rfl

theorem pollEvents_copier_frame (hdr : Option String) (group slaveId : String)
    (since limit now : Nat) (st : ServerState) :
    (pollEvents hdr group slaveId since limit now st).2.copier = st.copier := by
  unfold pollEvents
  split
  · rfl
  · split
    · rfl
    · split
      · rfl
      · split
        · rfl
        · rfl

theorem copierPush_events_of_error {masterKey : String} {hdr : Option String}
    {b : PushBody} {now : Nat} {c : Copier} {er : ApiErr}
    (h : (copierPush masterKey hdr b now c).1 = .error er) :
    (copierPush masterKey hdr b now c).2.events = c.events := by
  by_cases h1 : masterOk masterKey hdr
  · by_cases h2 : b.group = "" ∨ (b.type ≠ "OPEN" ∧ b.type ≠ "CLOSE")
    · simp [copierPush, h1, h2]
    · by_cases h3 : b.master_ticket = 0 ∨ b.symbol = ""
      · simp [copierPush, h1, h2, h3]
      · simp [copierPush, h1, h2, h3] at h
  · simp [copierPush, h1]

theorem pushMany_wf (masterKey : String)
    (reqs : List (Option String × PushBody × Nat)) (c : Copier)
    (hwf : eventsWf c) : eventsWf (pushMany masterKey reqs c).2 := by
  induction reqs generalizing c with
  | nil => simpa [pushMany] using hwf
  | cons r rest ih =>
    obtain ⟨hdr, b, now⟩ := r
    rcases hP : copierPush masterKey hdr b now c with ⟨r1, c1⟩
    have hwf1 : eventsWf c1 := by
      have hw : eventsWf (copierPush masterKey hdr b now c).2 :=
        copierPush_wf hwf
      rw [hP] at hw
      exact hw
    cases r1 with
    | error e =>
      rw [pushMany, hP]
      exact ih c1 hwf1
    | ok i =>
      rw [pushMany, hP]
      exact ih c1 hwf1

/-! Concrete fixtures used by the witnesses. -/

def wClient : Client :=
  { clientId := "c1", fullName := "Ada", groupId := "G1", apiKey := "K1",
    enabled := true, createdAt := 0, expiresAt := 1000, boundSlaveId := "" }

def wClientBound : Client :=
  { wClient with boundSlaveId := "S1" }

def wEvent : Event :=
  { id := 1, group := "G1", type := "OPEN", ts := 5, master_ticket := 101,
    open_time := 0, symbol := "EURUSD", cmd := 0, lots := 0, price := 0,
    sl := 0, tp := 0, magic := 0 }

def wState : ServerState :=
  { clients := [wClient], copier := { nextId := 2, events := [wEvent] },
    slaves := [] }

def wStateBound : ServerState :=
  { wState with clients := [wClientBound] }

def wBody : PushBody :=
  { group := "G1", type := "OPEN", master_ticket := 101, open_time := 0,
    symbol := "EURUSD", cmd := 0, lots := 0, price := 0, sl := 0, tp := 0,
    magic := 0 }

def wBodyBad : PushBody :=
  { wBody with master_ticket := 0 }

/-! The claims. -/

/-- Claim C2: a successful pollEvents call returns only events of the
requested group with id strictly greater than since, as a subsequence of
the stored log (insertion order, hence ascending ids whenever the stored
log has ascending ids), and at most min 500 (max 1 limit) of them. -/
theorem pollEvents_filter_order_limit
    {hdr : Option String} {group slaveId : String} {since limit now : Nat}
    {st : ServerState} {out : List Event}
    (h : (pollEvents hdr group slaveId since limit now st).1 = .ok out) :
    (∀ e ∈ out, e.group = group ∧ since < e.id) ∧
    out.Sublist st.copier.events ∧
    out.length ≤ min 500 (max 1 limit) ∧
    (st.copier.events.Pairwise (fun a b => a.id < b.id) →
      out.Pairwise (fun a b => a.id < b.id)) := by
  have hout : out =
      listSince group since (min 500 (max 1 limit)) st.copier.events := by
    unfold pollEvents at h
    split at h
    · simp at h
    · split at h
      · simp at h
      · split at h
        · dsimp only at h
          rw [Except.ok.injEq] at h
          exact h.symm
        · split at h
          · simp at h
          · dsimp only at h
            rw [Except.ok.injEq] at h
            exact h.symm
  subst hout
  refine ⟨fun e he => mem_listSince he, listSince_sublist _ _ _ _, ?_, ?_⟩
  · have hlen := listSince_length_le group since (min 500 (max 1 limit))
      st.copier.events
    omega
  · intro hp
    exact List.Pairwise.sublist (listSince_sublist _ _ _ _) hp

theorem pollEvents_filter_order_limit_witness :
    (∀ e ∈ [wEvent], e.group = "G1" ∧ 0 < e.id) ∧
    [wEvent].Sublist wState.copier.events ∧
    [wEvent].length ≤ min 500 (max 1 10) ∧
    (wState.copier.events.Pairwise (fun a b => a.id < b.id) →
      [wEvent].Pairwise (fun a b => a.id < b.id)) :=
  @pollEvents_filter_order_limit (some "K1") "G1" "S1" 0 10 10 wState
    [wEvent] (by decide)

/-- Claim C9: the two admin-gate variants agree whenever the admin key is
configured non-empty, both accepting exactly the requests whose x-admin-key
header equals the key; with the key unset they disagree on every request,
server.js allowing and part_000 rejecting. -/
theorem adminOk_variants_relation (key : String) (hdr : Option String) :
    (key ≠ "" →
      (adminOk key hdr = adminOkPart000 key hdr ∧
        (adminOk key hdr = true ↔ hdr = some key))) ∧
    (key = "" → adminOk key hdr = true ∧ adminOkPart000 key hdr = false) := by
  constructor
  · intro hk
    constructor
    · unfold adminOk adminOkPart000
      rw [if_neg hk, if_neg hk]
      cases hdr with
      | none =>
        simp [Ne.symm hk]
      | some h => simp
    · unfold adminOk
      rw [if_neg hk]
      cases hdr with
      | none => simp
      | some h => simp
  · intro hk
    subst hk
    unfold adminOk adminOkPart000
    simp

theorem adminOk_variants_relation_witness :
    (adminOk "A" (some "A") = adminOkPart000 "A" (some "A") ∧
      (adminOk "A" (some "A") = true ↔ (some "A" : Option String) = some "A")) ∧
    (adminOk "" (some "B") = true ∧ adminOkPart000 "" (some "B") = false) :=
  ⟨(adminOk_variants_relation "A" (some "A")).1 (by decide),
    (adminOk_variants_relation "" (some "B")).2 rfl⟩

/-- Claim C3: a successful ack creates the cursor record with lastAckId 0
when absent and sets lastAckId to max(current, event_id), so acking is
monotonic and idempotent; acking id e1 and then a smaller or equal id e2
leaves lastAckId at max(previous, e1). -/
theorem ack_monotonic_idempotent
    {hdr : Option String} {group slaveId : String} {event_id : Nat}
    {status : String} {now : Nat} {st : ServerState} {c : Client}
    (hgr : group ≠ "") (hsl : slaveId ≠ "") (hid : event_id ≠ 0)
    (hst : status ≠ "")
    (hreq : requireClient hdr group st.clients now = .ok c)
    (hbind : c.boundSlaveId = "" ∨ c.boundSlaveId = slaveId) :
    (copierAck hdr group slaveId event_id status now st).1 = .ok () ∧
    lastAckOf (copierAck hdr group slaveId event_id status now st).2.slaves
        (slaveKey group slaveId) =
      max (lastAckOf st.slaves (slaveKey group slaveId)) event_id ∧
    (getSlave st.slaves (slaveKey group slaveId) = none →
      getSlave (copierAck hdr group slaveId event_id status now st).2.slaves
          (slaveKey group slaveId) =
        some { lastAckId := event_id, lastSeenAt := now }) ∧
    (∀ e2, e2 ≠ 0 → e2 ≤ event_id →
      lastAckOf (copierAck hdr group slaveId e2 status now
            (copierAck hdr group slaveId event_id status now st).2).2.slaves
          (slaveKey group slaveId) =
        max (lastAckOf st.slaves (slaveKey group slaveId)) event_id) := by
  have heq := copierAck_ok_eq hgr hsl hid hst hreq hbind
  refine ⟨by rw [heq], ?_, ?_, ?_⟩
  · rw [heq]
    exact lastAckOf_ackSlave _ _ _ _
  · intro hnone
    rw [heq]
    dsimp only
    rw [getSlave_ackSlave]
    unfold lastAckOf
    rw [hnone]
    simp
  · intro e2 h2 hle
    have hreq1 : requireClient hdr group
        ((copierAck hdr group slaveId event_id status now st).2).clients now =
        .ok c := by
      rw [heq]
      exact hreq
    have heq2 := copierAck_ok_eq hgr hsl h2 hst hreq1 hbind
    rw [heq2]
    dsimp only
    rw [lastAckOf_ackSlave, heq]
    dsimp only
    rw [lastAckOf_ackSlave]
    omega

theorem ack_monotonic_idempotent_witness :
    ((copierAck (some "K1") "G1" "S1" 5 "DONE" 10 wState).1 = .ok () ∧
      lastAckOf (copierAck (some "K1") "G1" "S1" 5 "DONE" 10 wState).2.slaves
          (slaveKey "G1" "S1") =
        max (lastAckOf wState.slaves (slaveKey "G1" "S1")) 5 ∧
      (getSlave wState.slaves (slaveKey "G1" "S1") = none →
        getSlave (copierAck (some "K1") "G1" "S1" 5 "DONE" 10 wState).2.slaves
            (slaveKey "G1" "S1") =
          some { lastAckId := 5, lastSeenAt := 10 }) ∧
      (∀ e2, e2 ≠ 0 → e2 ≤ 5 →
        lastAckOf (copierAck (some "K1") "G1" "S1" e2 "DONE" 10
              (copierAck (some "K1") "G1" "S1" 5 "DONE" 10 wState).2).2.slaves
            (slaveKey "G1" "S1") =
          max (lastAckOf wState.slaves (slaveKey "G1" "S1")) 5)) :=
  ack_monotonic_idempotent (c := wClient) (by decide) (by decide) (by decide)
    (by decide) (by decide) (Or.inl (by decide))

/-- Claim C8: ack never changes the client list (so it never binds an
unbound client, unlike register and poll), and when the client is already
bound to a different slaveId the ack fails Forbidden with the whole state
unchanged. -/
theorem ack_preserves_clients
    (hdr : Option String) (group slaveId : String) (event_id : Nat)
    (status : String) (now : Nat) (st : ServerState) :
    (copierAck hdr group slaveId event_id status now st).2.clients =
      st.clients ∧
    (∀ c, group ≠ "" → slaveId ≠ "" → event_id ≠ 0 → status ≠ "" →
      requireClient hdr group st.clients now = .ok c →
      c.boundSlaveId ≠ "" → c.boundSlaveId ≠ slaveId →
      copierAck hdr group slaveId event_id status now st =
        (.error .forbidden, st)) ∧
    (∀ c, group ≠ "" → slaveId ≠ "" → event_id ≠ 0 → status ≠ "" →
      requireClient hdr group st.clients now = .ok c →
      c.boundSlaveId = "" →
      (copierAck hdr group slaveId event_id status now st).1 = .ok () ∧
      findClientByApiKey
          (copierAck hdr group slaveId event_id status now st).2.clients
          (apiKeyOf hdr) = some c) := by
  refine ⟨(copierAck_clients_copier_frame hdr group slaveId event_id status
    now st).1, ?_, ?_⟩
  · intro c hgr hsl hid hst hreq hb1 hb2
    exact copierAck_forbidden_eq hgr hsl hid hst hreq hb1 hb2
  · intro c hgr hsl hid hst hreq hempty
    have heq := copierAck_ok_eq hgr hsl hid hst hreq (Or.inl hempty)
    refine ⟨by rw [heq], ?_⟩
    rw [heq]
    exact (requireClient_ok hreq).2.1

theorem ack_preserves_clients_witness :
    (copierAck (some "K1") "G1" "S1" 5 "DONE" 10 wState).2.clients =
      wState.clients ∧
    ((copierAck (some "K1") "G1" "S1" 5 "DONE" 10 wState).1 = .ok () ∧
      findClientByApiKey
          (copierAck (some "K1") "G1" "S1" 5 "DONE" 10 wState).2.clients
          (apiKeyOf (some "K1")) = some wClient) ∧
    copierAck (some "K1") "G1" "S2" 5 "DONE" 10 wStateBound =
      (.error .forbidden, wStateBound) :=
  ⟨(ack_preserves_clients (some "K1") "G1" "S1" 5 "DONE" 10 wState).1,
    (ack_preserves_clients (some "K1") "G1" "S1" 5 "DONE" 10 wState).2.2
      wClient (by decide) (by decide) (by decide) (by decide) (by decide)
      (by decide),
    (ack_preserves_clients (some "K1") "G1" "S2" 5 "DONE" 10 wStateBound).2.1
      wClientBound (by decide) (by decide) (by decide) (by decide) (by decide)
      (by decide) (by decide)⟩

theorem findClientByApiKey_after_bind {clients : List Client}
    {hdr : Option String} {c : Client} (slaveId : String)
    (hfind : findClientByApiKey clients (apiKeyOf hdr) = some c) :
    findClientByApiKey
      (updateFirst (fun x => x.apiKey == c.apiKey)
        (fun x => { x with boundSlaveId := slaveId }) clients)
      (apiKeyOf hdr) = some { c with boundSlaveId := slaveId } := by
  have hfind' : clients.find? (fun x => x.apiKey == apiKeyOf hdr) = some c :=
    hfind
  have hkey : c.apiKey = apiKeyOf hdr := by
    have h2 := List.find?_some hfind'
    simpa using h2
  unfold findClientByApiKey
  simp only [← hkey] at hfind' ⊢
  rw [find?_updateFirst (fun x => x.apiKey == c.apiKey)
      (fun x => { x with boundSlaveId := slaveId }) (fun x => rfl), hfind']
  rfl

theorem adminDisable_boundSlaveId (adminKey : String) (hdr : Option String)
    (clientId : String) (enabled : Bool) (clients : List Client) :
    ((adminDisable adminKey hdr clientId enabled clients).2).map
        Client.boundSlaveId =
      clients.map Client.boundSlaveId := by
  unfold adminDisable
  split
  · rfl
  · split
    · rfl
    · exact map_updateFirst Client.boundSlaveId
        (fun x => x.clientId == clientId)
        (fun x => { x with enabled := enabled }) (fun x => rfl) clients

theorem adminExtend_boundSlaveId (adminKey : String) (hdr : Option String)
    (clientId duration : String) (now : Nat) (clients : List Client) :
    ((adminExtend adminKey hdr clientId duration now clients).2).map
        Client.boundSlaveId =
      clients.map Client.boundSlaveId := by
  unfold adminExtend
  split
  · rfl
  · split
    · rfl
    · rename_i c hfound
      exact map_updateFirst Client.boundSlaveId
        (fun x => x.clientId == clientId)
        (fun x => { x with expiresAt := extendedExpiry now c duration })
        (fun x => rfl) clients

theorem adminResetBind_clears {adminKey : String} {hdr : Option String}
    {clientId : String} {clients : List Client} {c : Client}
    (hadmin : adminOk adminKey hdr = true)
    (hfind : findClientById clients clientId = some c) :
    findClientById (adminResetBind adminKey hdr clientId clients).2 clientId =
      some { c with boundSlaveId := "" } := by
  unfold adminResetBind
  rw [if_neg (by simp [hadmin]), hfind]
  dsimp only
  have hfind' : clients.find? (fun x => x.clientId == clientId) = some c :=
    hfind
  unfold findClientById
  rw [find?_updateFirst (fun x => x.clientId == clientId)
      (fun x => { x with boundSlaveId := "" }) (fun x => rfl), hfind']
  rfl

/-- Claim C1: at most one slave identity is bound per client at a time:
register and poll bind a previously unbound client to the supplied slaveId
(first-seen-wins); when the client is already bound to a different slaveId
they fail Forbidden with the state unchanged; when bound to the same
slaveId the client list is unchanged; ack, disable and extend never change
any boundSlaveId; the administrative resetBind clears it. -/
theorem boundSlaveId_single_bind
    (hdr : Option String) (group slaveId : String) (now : Nat)
    (st : ServerState) :
    (∀ c, group ≠ "" → slaveId ≠ "" →
      requireClient hdr group st.clients now = .ok c →
      c.boundSlaveId = "" →
      (registerSlave hdr group slaveId now st).1 = .ok slaveId ∧
      findClientByApiKey (registerSlave hdr group slaveId now st).2.clients
          (apiKeyOf hdr) = some { c with boundSlaveId := slaveId } ∧
      (∀ since limit,
        findClientByApiKey
            (pollEvents hdr group slaveId since limit now st).2.clients
            (apiKeyOf hdr) = some { c with boundSlaveId := slaveId })) ∧
    (∀ c, group ≠ "" → slaveId ≠ "" →
      requireClient hdr group st.clients now = .ok c →
      c.boundSlaveId ≠ "" → c.boundSlaveId ≠ slaveId →
      registerSlave hdr group slaveId now st = (.error .forbidden, st) ∧
      (∀ since limit,
        pollEvents hdr group slaveId since limit now st =
          (.error .forbidden, st))) ∧
    (∀ c, group ≠ "" → slaveId ≠ "" →
      requireClient hdr group st.clients now = .ok c →
      c.boundSlaveId = slaveId →
      (registerSlave hdr group slaveId now st).2.clients = st.clients ∧
      (∀ since limit,
        (pollEvents hdr group slaveId since limit now st).2.clients =
          st.clients)) ∧
    (∀ event_id status,
      ((copierAck hdr group slaveId event_id status now st).2.clients).map
          Client.boundSlaveId =
        st.clients.map Client.boundSlaveId) ∧
    (∀ adminKey clientId enabled,
      ((adminDisable adminKey hdr clientId enabled st.clients).2).map
          Client.boundSlaveId =
        st.clients.map Client.boundSlaveId) ∧
    (∀ adminKey clientId duration,
      ((adminExtend adminKey hdr clientId duration now st.clients).2).map
          Client.boundSlaveId =
        st.clients.map Client.boundSlaveId) ∧
    (∀ adminKey clientId c, adminOk adminKey hdr = true →
      findClientById st.clients clientId = some c →
      findClientById (adminResetBind adminKey hdr clientId st.clients).2
          clientId =
        some { c with boundSlaveId := "" }) := by
  refine ⟨?_, ?_, ?_, ?_, ?_, ?_, ?_⟩
  · intro c hgr hsl hreq hempty
    have hfind := (requireClient_ok hreq).2.1
    have hreg := registerSlave_bind_eq hgr hsl hreq hempty
    refine ⟨by rw [hreg], ?_, ?_⟩
    · rw [hreg]
      exact findClientByApiKey_after_bind slaveId hfind
    · intro since limit
      rw [pollEvents_bind_eq hgr hsl hreq hempty]
      exact findClientByApiKey_after_bind slaveId hfind
  · intro c hgr hsl hreq hb1 hb2
    exact ⟨registerSlave_mismatch_eq hgr hsl hreq hb1 hb2,
      fun since limit => pollEvents_mismatch_eq hgr hsl hreq hb1 hb2⟩
  · intro c hgr hsl hreq hb
    refine ⟨?_, ?_⟩
    · rw [registerSlave_rebind_eq hgr hsl hreq hb hsl]
    · intro since limit
      rw [pollEvents_bound_eq hgr hsl hreq hb hsl]
  · intro event_id status
    rw [(copierAck_clients_copier_frame hdr group slaveId event_id status
      now st).1]
  · intro adminKey clientId enabled
    exact adminDisable_boundSlaveId adminKey hdr clientId enabled st.clients
  · intro adminKey clientId duration
    exact adminExtend_boundSlaveId adminKey hdr clientId duration now
      st.clients
  · intro adminKey clientId c hadmin hfind
    exact adminResetBind_clears hadmin hfind

theorem boundSlaveId_single_bind_witness :
    (registerSlave (some "K1") "G1" "S1" 10 wState).1 = .ok "S1" ∧
    findClientByApiKey (registerSlave (some "K1") "G1" "S1" 10 wState).2.clients
        (apiKeyOf (some "K1")) = some { wClient with boundSlaveId := "S1" } ∧
    registerSlave (some "K1") "G1" "S2" 10 wStateBound =
      (.error .forbidden, wStateBound) ∧
    findClientById
        (adminResetBind "A" (some "A") "c1" wStateBound.clients).2 "c1" =
      some { wClientBound with boundSlaveId := "" } := by
  have h1 := (boundSlaveId_single_bind (some "K1") "G1" "S1" 10 wState).1
    wClient (by decide) (by decide) (by decide) (by decide)
  have h2 := ((boundSlaveId_single_bind (some "K1") "G1" "S2" 10
    wStateBound).2.1 wClientBound (by decide) (by decide) (by decide)
    (by decide) (by decide)).1
  have h3 := (boundSlaveId_single_bind (some "A") "G1" "S1" 10
    wStateBound).2.2.2.2.2.2 "A" "c1" wClientBound (by decide) (by decide)
  exact ⟨h1.1, h1.2.1, h2, h3⟩

theorem clientActive_false_of_expired {now : Nat} {c : Client}
    (h : c.expiresAt ≤ now) : clientActive now c = false := by
  unfold clientActive
  simp [Nat.not_lt.mpr h]

/-- Claim C4: the tenant gate fails Unauthorized when the key header is
missing-or-blank or matches no client, Forbidden when the matched client is
inactive (disabled or expired), and Forbidden when a requested group
differs from the client group, in that order; an expired client with a
correct key is rejected Forbidden by register, poll and ack. -/
theorem tenant_gate_errors (hdr : Option String) (g : String)
    (clients : List Client) (now : Nat) :
    (apiKeyOf hdr = "" →
      requireClient hdr g clients now = .error .unauthorized) ∧
    (findClientByApiKey clients (apiKeyOf hdr) = none →
      requireClient hdr g clients now = .error .unauthorized) ∧
    (∀ c, apiKeyOf hdr ≠ "" →
      findClientByApiKey clients (apiKeyOf hdr) = some c →
      clientActive now c = false →
      requireClient hdr g clients now = .error .forbidden) ∧
    (∀ c, apiKeyOf hdr ≠ "" →
      findClientByApiKey clients (apiKeyOf hdr) = some c →
      clientActive now c = true → g ≠ "" → c.groupId ≠ g →
      requireClient hdr g clients now = .error .forbidden) ∧
    (∀ (st : ServerState) (c : Client) (group slaveId status : String)
        (event_id since limit : Nat),
      group ≠ "" → slaveId ≠ "" → event_id ≠ 0 → status ≠ "" →
      apiKeyOf hdr ≠ "" →
      findClientByApiKey st.clients (apiKeyOf hdr) = some c →
      c.expiresAt ≤ now →
      registerSlave hdr group slaveId now st = (.error .forbidden, st) ∧
      pollEvents hdr group slaveId since limit now st =
        (.error .forbidden, st) ∧
      copierAck hdr group slaveId event_id status now st =
        (.error .forbidden, st)) := by
  refine ⟨requireClient_empty_key, requireClient_no_match,
    fun c hk hfind hact => requireClient_inactive hk hfind hact,
    fun c hk hfind hact hg hne =>
      requireClient_group_mismatch hk hfind hact hg hne, ?_⟩
  intro st c group slaveId status event_id since limit hgr hsl hid hst hk
    hfind hexp
  have hreq : requireClient hdr group st.clients now = .error .forbidden :=
    requireClient_inactive hk hfind (clientActive_false_of_expired hexp)
  exact ⟨registerSlave_gate_error hgr hsl hreq,
    pollEvents_gate_error hgr hsl hreq,
    copierAck_gate_error hgr hsl hid hst hreq⟩

def wClientExpired : Client :=
  { wClient with expiresAt := 5 }

def wStateExpired : ServerState :=
  { wState with clients := [wClientExpired] }

theorem tenant_gate_errors_witness :
    requireClient none "G1" [wClient] 10 = .error .unauthorized ∧
    (registerSlave (some "K1") "G1" "S1" 10 wStateExpired =
        (.error .forbidden, wStateExpired) ∧
      pollEvents (some "K1") "G1" "S1" 0 10 10 wStateExpired =
        (.error .forbidden, wStateExpired) ∧
      copierAck (some "K1") "G1" "S1" 5 "DONE" 10 wStateExpired =
        (.error .forbidden, wStateExpired)) :=
  ⟨(tenant_gate_errors none "G1" [wClient] 10).1 (by decide),
    (tenant_gate_errors (some "K1") "G1" [] 10).2.2.2.2 wStateExpired
      wClientExpired "G1" "S1" "DONE" 5 0 10 (by decide) (by decide)
      (by decide) (by decide) (by decide) (by decide) (by decide)⟩

def wCopier0 : Copier :=
  { nextId := 1, events := [] }

def wReqs : List (Option String × PushBody × Nat) :=
  [(some "M", wBody, 5), (some "M", wBodyBad, 6), (some "M", wBody, 7)]

/-- Claim C5: over any sequence of pushes the assigned ids are strictly
increasing in push order and pairwise distinct (globally, across groups,
from the one shared counter), and the stored log keeps ascending ids in
insertion order. -/
theorem push_ids_strictly_increasing (masterKey : String)
    (reqs : List (Option String × PushBody × Nat)) (c : Copier)
    (hwf : eventsWf c) :
    (pushMany masterKey reqs c).1.Pairwise (fun a b => a < b) ∧
    (pushMany masterKey reqs c).1.Pairwise (fun a b => a ≠ b) ∧
    eventsWf (pushMany masterKey reqs c).2 ∧
    (pushMany masterKey reqs c).2.events.Pairwise (fun a e => a.id < e.id) := by
  have hspec := pushMany_spec masterKey reqs c
  have hwf2 := pushMany_wf masterKey reqs c hwf
  exact ⟨hspec.2.2,
    List.Pairwise.imp (fun h => Nat.ne_of_lt h) hspec.2.2, hwf2, hwf2.1⟩

theorem push_ids_strictly_increasing_witness :
    (pushMany "M" wReqs wCopier0).1.Pairwise (fun a b => a < b) ∧
    (pushMany "M" wReqs wCopier0).1.Pairwise (fun a b => a ≠ b) ∧
    eventsWf (pushMany "M" wReqs wCopier0).2 ∧
    (pushMany "M" wReqs wCopier0).2.events.Pairwise (fun a e => a.id < e.id) :=
  push_ids_strictly_increasing "M" wReqs wCopier0
    ⟨by simp [wCopier0], by simp [wCopier0]⟩

/-- Claim C6: extend on an existing client sets the new expiry to
max(now, current expiry) plus the duration offset (M1 31 days, M3 93, M6
186, Y1 366, anything else 31 days of milliseconds), so an already-expired
client extended by M1 ends at now + 31 days; extend never decreases the
effective expiry, and an unknown clientId fails NotFound. -/
theorem extend_expiry_spec (adminKey : String) (hdr : Option String)
    (clientId duration : String) (now : Nat) (clients : List Client)
    (hadmin : adminOk adminKey hdr = true) :
    (findClientById clients clientId = none →
      adminExtend adminKey hdr clientId duration now clients =
        (.error .notFound, clients)) ∧
    (∀ c, findClientById clients clientId = some c →
      (adminExtend adminKey hdr clientId duration now clients).1 =
        .ok (extendedExpiry now c duration) ∧
      findClientById
          (adminExtend adminKey hdr clientId duration now clients).2
          clientId =
        some { c with expiresAt := extendedExpiry now c duration } ∧
      c.expiresAt ≤ extendedExpiry now c duration ∧
      now ≤ extendedExpiry now c duration ∧
      (c.expiresAt ≤ now → duration = "M1" →
        extendedExpiry now c duration = now + 31 * (24 * 60 * 60 * 1000))) ∧
    (addDurationMs "M1" = 31 * (24 * 60 * 60 * 1000) ∧
      addDurationMs "M3" = 93 * (24 * 60 * 60 * 1000) ∧
      addDurationMs "M6" = 186 * (24 * 60 * 60 * 1000) ∧
      addDurationMs "Y1" = 366 * (24 * 60 * 60 * 1000)) ∧
    (∀ code, code ≠ "M1" → code ≠ "M3" → code ≠ "M6" → code ≠ "Y1" →
      addDurationMs code = 31 * (24 * 60 * 60 * 1000)) := by
  refine ⟨?_, ?_, by decide, ?_⟩
  · intro hnone
    unfold adminExtend
    rw [if_neg (by simp [hadmin]), hnone]
  · intro c hfind
    have hfind' : clients.find? (fun x => x.clientId == clientId) = some c :=
      hfind
    have heq : adminExtend adminKey hdr clientId duration now clients =
        (.ok (extendedExpiry now c duration),
          updateFirst (fun x => x.clientId == clientId)
            (fun x => { x with expiresAt := extendedExpiry now c duration })
            clients) := by
      unfold adminExtend
      rw [if_neg (by simp [hadmin]), hfind]
    refine ⟨by rw [heq], ?_, ?_, ?_, ?_⟩
    · rw [heq]
      unfold findClientById
      rw [find?_updateFirst (fun x => x.clientId == clientId)
          (fun x => { x with expiresAt := extendedExpiry now c duration })
          (fun x => rfl), hfind']
      rfl
    · unfold extendedExpiry
      omega
    · unfold extendedExpiry
      omega
    · intro hle hdur
      subst hdur
      unfold extendedExpiry
      rw [Nat.max_eq_left hle]
      norm_num [addDurationMs]
  · intro code h1 h2 h3 h4
    simp [addDurationMs, h1, h2, h3, h4]

theorem extend_expiry_spec_witness :
    (adminExtend "A" (some "A") "c1" "M1" 10 [wClientExpired]).1 =
      .ok (extendedExpiry 10 wClientExpired "M1") ∧
    extendedExpiry 10 wClientExpired "M1" = 10 + 31 * (24 * 60 * 60 * 1000) ∧
    adminExtend "A" (some "A") "zz" "M1" 10 [] = (.error .notFound, []) := by
  have h := extend_expiry_spec "A" (some "A") "c1" "M1" 10 [wClientExpired]
    (by decide)
  have h2 := h.2.1 wClientExpired (by decide)
  exact ⟨h2.1, h2.2.2.2.2 (by decide) rfl,
    (extend_expiry_spec "A" (some "A") "zz" "M1" 10 [] (by decide)).1 rfl⟩

theorem pairwise_append_pushed {c : Copier} (b : PushBody) (now : Nat)
    (hwf : eventsWf c) :
    (c.events ++ [pushedEvent b now c.nextId]).Pairwise
      (fun a e => a.id < e.id) := by
  refine List.pairwise_append.mpr ⟨hwf.1, List.pairwise_singleton _ _, ?_⟩
  intro a ha e he
  rw [List.mem_singleton] at he
  subst he
  exact hwf.2 a ha

/-- Claim C7: after every successful push the log holds at most 50000
events; the new log is a suffix of the old log plus the pushed event, of
length min (old + 1) 50000, and the dropped prefix holds only the oldest
events (smaller ids than everything kept, for a well-formed log); failed
pushes and the register, poll and ack handlers leave the stored events
untouched. -/
theorem push_retention_bound (masterKey : String) (hdr : Option String)
    (b : PushBody) (now : Nat) (c : Copier) :
    (∀ i, (copierPush masterKey hdr b now c).1 = .ok i →
      (copierPush masterKey hdr b now c).2.events.length ≤ 50000 ∧
      (copierPush masterKey hdr b now c).2.events.length =
        min (c.events.length + 1) 50000 ∧
      ∃ dropped,
        c.events ++ [pushedEvent b now c.nextId] =
          dropped ++ (copierPush masterKey hdr b now c).2.events ∧
        (eventsWf c → ∀ a ∈ dropped,
          ∀ e ∈ (copierPush masterKey hdr b now c).2.events, a.id < e.id)) ∧
    (∀ er, (copierPush masterKey hdr b now c).1 = .error er →
      (copierPush masterKey hdr b now c).2.events = c.events) ∧
    (∀ (hdr2 : Option String) (g s status : String)
        (since limit eid now2 : Nat) (st : ServerState),
      (registerSlave hdr2 g s now2 st).2.copier = st.copier ∧
      (pollEvents hdr2 g s since limit now2 st).2.copier = st.copier ∧
      (copierAck hdr2 g s eid status now2 st).2.copier = st.copier) := by
  refine ⟨?_, fun er h => copierPush_events_of_error h, ?_⟩
  · intro i hok
    obtain ⟨-, -, hev⟩ := copierPush_ok_inv hok
    have hlen : (c.events ++ [pushedEvent b now c.nextId]).length =
        c.events.length + 1 := by
      simp
    refine ⟨?_, ?_, ?_⟩
    · rw [hev, trimEvents_length, hlen]
      omega
    · rw [hev, trimEvents_length, hlen]
    · obtain ⟨dropped, hd⟩ :=
        trimEvents_suffix (c.events ++ [pushedEvent b now c.nextId])
      refine ⟨dropped, by rw [hev, hd], ?_⟩
      intro hwf a ha e he
      have hPair := pairwise_append_pushed b now hwf
      rw [← hd] at hPair
      rw [hev] at he
      exact (List.pairwise_append.mp hPair).2.2 a ha e he
  · intro hdr2 g s status since limit eid now2 st
    exact ⟨registerSlave_copier_frame hdr2 g s now2 st,
      pollEvents_copier_frame hdr2 g s since limit now2 st,
      (copierAck_clients_copier_frame hdr2 g s eid status now2 st).2⟩

theorem push_retention_bound_witness :
    (copierPush "M" (some "M") wBody 5 wCopier0).2.events.length ≤ 50000 ∧
    (copierPush "M" (some "M") wBody 5 wCopier0).2.events.length =
      min (wCopier0.events.length + 1) 50000 ∧
    (copierPush "M" (some "M") wBodyBad 6 wCopier0).2.events =
      wCopier0.events := by
  have h := (push_retention_bound "M" (some "M") wBody 5 wCopier0).1 1
    (by decide)
  have h2 := (push_retention_bound "M" (some "M") wBodyBad 6 wCopier0).2.1
    .invalidInput (by decide)
  exact ⟨h.1, h.2.1, h2⟩

/-- Claim C10: a push that passes the group/type check but is rejected for
a missing master_ticket or symbol is not atomic: the shared counter is
already incremented when InvalidInput is returned while the event list is
unchanged, so the id skipped that way never appears and successful ids can
have gaps. -/
theorem push_counter_not_atomic (masterKey : String) (hdr : Option String)
    (b : PushBody) (now : Nat) (c : Copier)
    (hm : masterOk masterKey hdr = true) (hgr : b.group ≠ "")
    (hty : b.type = "OPEN" ∨ b.type = "CLOSE")
    (hbad : b.master_ticket = 0 ∨ b.symbol = "") :
    copierPush masterKey hdr b now c =
      (.error .invalidInput, { c with nextId := c.nextId + 1 }) ∧
    (∀ (b2 : PushBody) (now2 i2 : Nat),
      (copierPush masterKey hdr b2 now2
          { c with nextId := c.nextId + 1 }).1 = .ok i2 →
      i2 = c.nextId + 1 ∧
      (eventsWf c →
        ∀ e ∈ (copierPush masterKey hdr b2 now2
            { c with nextId := c.nextId + 1 }).2.events,
          e.id ≠ c.nextId)) := by
  constructor
  · unfold copierPush
    rw [if_neg (by simp [hm]),
      if_neg (by rcases hty with h | h <;> simp [hgr, h]), if_pos hbad]
  · intro b2 now2 i2 hok
    obtain ⟨hi, -, hev⟩ := copierPush_ok_inv hok
    refine ⟨hi, ?_⟩
    intro hwf e he
    rw [hev] at he
    have hmem := (trimEvents_sublist _).subset he
    rcases List.mem_append.mp hmem with hold | hnew
    · exact Nat.ne_of_lt (hwf.2 e hold)
    · rw [List.mem_singleton] at hnew
      subst hnew
      simp [pushedEvent]

theorem push_counter_not_atomic_witness :
    copierPush "M" (some "M") wBodyBad 6 wCopier0 =
      (.error .invalidInput, { wCopier0 with nextId := wCopier0.nextId + 1 }) ∧
    (2 = wCopier0.nextId + 1 ∧
      (eventsWf wCopier0 →
        ∀ e ∈ (copierPush "M" (some "M") wBody 7
            { wCopier0 with nextId := wCopier0.nextId + 1 }).2.events,
          e.id ≠ wCopier0.nextId)) := by
  have h := push_counter_not_atomic "M" (some "M") wBodyBad 6 wCopier0
    (by decide) (by decide) (Or.inl rfl) (Or.inl rfl)
  exact ⟨h.1, h.2 wBody 7 2 (by decide)⟩

end Rent
